import Mathlib

/-!
Shallow embedding of the LAN communication relay (server_core.py /
client_core.py): the server's session registry, TCP control-message
dispatch, UDP media routing, liveness sweeping, and the client's
connect / frame / UDP-receive logic.  Python dicts are modelled as
association lists preserving insertion order (as Python dicts do),
the `main` room set as a list of ids, time as a Nat millisecond clock,
and raw bytes as lists of Nat.
-/

namespace CN

/-- First-match lookup in an association list (Python `d[k]` / `d.get(k)`). -/
def alookup {α : Type} : List (String × α) → String → Option α
  | [], _ => none
  | (k, v) :: rest, key => if k = key then some v else alookup rest key

/-- Key membership test (Python `k in d`). -/
def amem {α : Type} (l : List (String × α)) (key : String) : Bool :=
  (alookup l key).isSome

/-- Python dict assignment `d[key] = v`: replace in place if the key exists,
otherwise append (insertion order preserved). -/
def aupdate {α : Type} : List (String × α) → String → α → List (String × α)
  | [], key, v => [(key, v)]
  | (k, w) :: rest, key, v =>
    if k = key then (key, v) :: rest else (k, w) :: aupdate rest key v

/-- Python `del d[key]`: remove the (unique, under the dict invariant)
entry with this key. -/
def aerase {α : Type} : List (String × α) → String → List (String × α)
  | [], _ => []
  | (k, w) :: rest, key => if k = key then rest else (k, w) :: aerase rest key

/-- Python `set.add`. -/
def sadd (s : List String) (x : String) : List String :=
  if x ∈ s then s else s ++ [x]

/-- Python `set.discard`. -/
def sdiscard (s : List String) (x : String) : List String :=
  s.filter (fun y => y ≠ x)

/-- Decimal digits of a Nat, most significant first, with explicit fuel
(the fuel `n+1` always suffices).  Models Python's decimal formatting of
`int(time.time() * 1000)` inside the f-string. -/
def digitsOf : Nat → Nat → List Nat
  | 0, _ => []
  | fuel + 1, n => if n < 10 then [n] else digitsOf fuel (n / 10) ++ [n % 10]

/-- One decimal digit as a character. -/
def digitChar (d : Nat) : Char := Char.ofNat (48 + d)

/-- Decimal string of a Nat (Python `str(n)` for non-negative `n`). -/
def natStr (n : Nat) : String := String.mk ((digitsOf (n + 1) n).map digitChar)

/-- Server-side record of one connected peer (`Client` dataclass in
server_core.py).  The `tcp_writer`/`tcp_reader` handles are represented
by the client id keying the registry; addresses are (host, port). -/
structure Client where
  client_id : String
  username : String
  udp_addr : String × Nat
  video_active : Bool := false
  audio_active : Bool := false
  screen_sharing : Bool := false
  last_seen : Nat := 0
  deriving Repr, DecidableEq

/-- The server's three client indexes (`self.clients`,
`self.username_to_id`, `self.rooms['main']`). -/
structure ServerState where
  clients : List (String × Client)
  username_to_id : List (String × String)
  room_main : List String
  deriving Repr, DecidableEq

def emptyState : ServerState := ⟨[], [], []⟩

/-- Well-formedness a Python process guarantees: dict keys are unique. -/
def WF (st : ServerState) : Prop :=
  (st.clients.map Prod.fst).Nodup ∧ (st.username_to_id.map Prod.fst).Nodup

/-- The id built at registration:
`client_id = f"{username}_{int(time.time() * 1000)}"`. -/
def mkClientId (username : String) (now_ms : Nat) : String :=
  username ++ "_" ++ natStr now_ms

/-- The registration step of `handle_tcp_client` (lines 88-109): the
(stripped) handshake payload is the username; an empty username closes
the connection without registering (`none`); otherwise the client is
stored in all three indexes and the new id returned.  `tcp_ip` is the
peer address `addr[0]`, `udp_port` the server's configured UDP port. -/
def handshake (udp_port : Nat) (st : ServerState) (username : String)
    (now_ms : Nat) (tcp_ip : String) : Option (ServerState × String) :=
  if username = "" then none
  else
    let cid := mkClientId username now_ms
    let c : Client :=
      { client_id := cid, username := username,
        udp_addr := (tcp_ip, udp_port), last_seen := now_ms }
    some ({ clients := aupdate st.clients cid c,
            username_to_id := aupdate st.username_to_id username cid,
            room_main := sadd st.room_main cid }, cid)

/-- One handshake request: the username sent, the server clock in ms at
registration, and the peer's TCP source address. -/
structure Handshake where
  username : String
  now_ms : Nat
  tcp_ip : String
  deriving Repr, DecidableEq

/-- Run a sequence of handshakes against the registry (each TCP
connection performing the registration step of `handle_tcp_client`). -/
def runHandshakes (udp_port : Nat) (st : ServerState) : List Handshake → ServerState
  | [] => st
  | h :: rest =>
    match handshake udp_port st h.username h.now_ms h.tcp_ip with
    | none => runHandshakes udp_port st rest
    | some (st', _) => runHandshakes udp_port st' rest

/-- The `finally` cleanup of `handle_tcp_client` (lines 148-160), reached
on read failure, frame timeout, or any error: if the client is still
registered, delete it from the client table, delete its username's entry
from the name map (whatever id that entry currently holds), and discard
it from the room set; the returned Bool records whether the presence
rebroadcast (`broadcast_user_list`) was triggered. -/
def cleanup_connection (st : ServerState) (client_id : String) :
    ServerState × Bool :=
  match alookup st.clients client_id with
  | none => (st, false)
  | some c =>
    ({ clients := aerase st.clients client_id,
       username_to_id :=
         if amem st.username_to_id c.username then
           aerase st.username_to_id c.username
         else st.username_to_id,
       room_main := sdiscard st.room_main client_id }, true)

/-- One pass of `cleanup_inactive_clients` (lines 349-367) at time `now`
(ms clock; the source compares seconds against 300, here ms against
300000): collect the ids silent too long, delete each from the client
table only, and rebroadcast presence iff any were evicted. -/
def cleanup_inactive (st : ServerState) (now : Nat) : ServerState × Bool :=
  let inactive :=
    (st.clients.filter (fun p => 300000 < now - p.2.last_seen)).map Prod.fst
  let clients' :=
    inactive.foldl
      (fun cs cid => if amem cs cid then aerase cs cid else cs) st.clients
  ({ st with clients := clients' }, !inactive.isEmpty)

/-- `broadcast_chat` (lines 240-255): the list of framed send attempts
`(recipient id, message)` issued, in registry order, skipping the sender;
an unknown sender produces no sends. -/
def broadcast_chat (st : ServerState) (sender_id : String)
    (message : String) : List (String × String) :=
  match alookup st.clients sender_id with
  | none => []
  | some sender =>
    (st.clients.filter (fun p => p.1 ≠ sender_id)).map
      (fun p => (p.1, "CHAT:" ++ sender.username ++ ":" ++ message))

/-- `asyncio.gather(*tasks, return_exceptions=True)` with per-recipient
failure isolation: the sends that actually arrive are exactly the
attempts whose recipient is not failing. -/
def deliveredTo (sends : List (String × String)) (fails : String → Bool) :
    List (String × String) :=
  sends.filter (fun p => !fails p.1)

/-- `json.dumps` of a Python bool. -/
def boolJson (b : Bool) : String := if b then "true" else "false"

/-- `json.dumps` of the status dict built in `broadcast_user_status`
(insertion order username, video, audio, screen; default separators). -/
def statusJson (c : Client) : String :=
  "\x7b\"username\": \"" ++ c.username ++ "\", \"video\": " ++
    boolJson c.video_active ++ ", \"audio\": " ++ boolJson c.audio_active ++
    ", \"screen\": " ++ boolJson c.screen_sharing ++ "\x7d"

/-- `broadcast_user_status` (lines 296-318): send `STATUS:<json>` for the
given client to every registered client except that one. -/
def broadcast_user_status (st : ServerState) (client_id : String) :
    List (String × String) :=
  match alookup st.clients client_id with
  | none => []
  | some c =>
    (st.clients.filter (fun p => p.1 ≠ client_id)).map
      (fun p => (p.1, "STATUS:" ++ statusJson c))

/-- `handle_control` (lines 274-294): flip the matching capability flag
on the sender's own record (unknown controls change nothing), then
broadcast the status delta; returns the new state and the send list. -/
def handle_control (st : ServerState) (client_id : String)
    (control : String) : ServerState × List (String × String) :=
  match alookup st.clients client_id with
  | none => (st, [])
  | some c =>
    let c' :=
      if control = "VIDEO_ON" then { c with video_active := true }
      else if control = "VIDEO_OFF" then { c with video_active := false }
      else if control = "AUDIO_ON" then { c with audio_active := true }
      else if control = "AUDIO_OFF" then { c with audio_active := false }
      else if control = "SCREEN_ON" then { c with screen_sharing := true }
      else if control = "SCREEN_OFF" then { c with screen_sharing := false }
      else c
    let st' := { st with clients := aupdate st.clients client_id c' }
    (st', broadcast_user_status st' client_id)

/-- `struct.pack('H', n)` on a little-endian host: two bytes, low first
(callers only pack values below 2^16). -/
def packH (n : Nat) : List Nat := [n % 256, n / 256 % 256]

/-- `struct.unpack('H', b)[0]` on a little-endian host. -/
def unpackH (b0 b1 : Nat) : Nat := b0 + 256 * b1

/-- `s.encode()` for the identifier/name strings on the wire (code
points of the characters; ids and names are ASCII in practice). -/
def encodeStr (s : String) : List Nat := s.data.map Char.toNat

/-- `b.decode()` for the identifier/name bytes on the wire. -/
def decodeBytes (l : List Nat) : String := String.mk (l.map Char.ofNat)

/-- The UDP header parse shared by `handle_udp_streams` (lines 166-181)
and the client's `receive_udp_loop` (lines 552-567):
`[type:1][tag_len:2][tag][payload]`; packets shorter than 3 bytes or
whose declared tag length exceeds the remaining bytes are discarded. -/
def parse_udp (data : List Nat) : Option (Nat × String × List Nat) :=
  if data.length < 3 then none
  else
    let tagLen := unpackH (data.getD 1 0) (data.getD 2 0)
    if data.length < 3 + tagLen then none
    else
      some (data.headD 0, decodeBytes ((data.drop 3).take tagLen),
            data.drop (3 + tagLen))

/-- The in-place mutation `self.clients[client_id].udp_addr = addr`
(a no-op when the id is not registered). -/
def set_udp_addr (l : List (String × Client)) (cid : String)
    (src : String × Nat) : List (String × Client) :=
  l.map (fun p => if p.1 = cid then (p.1, { p.2 with udp_addr := src }) else p)

/-- `broadcast_udp` (lines 195-208): re-stamp the packet with the
sender's display name ("Unknown" when the tag is not a live session) and
return the send attempts `(destination udp_addr, packet)` to every
client except the sender. -/
def broadcast_udp (st : ServerState) (data : List Nat) (sender_id : String)
    (packet_type : Nat) : List ((String × Nat) × List Nat) :=
  let sender_name :=
    match alookup st.clients sender_id with
    | some c => c.username
    | none => "Unknown"
  let sender_bytes := encodeStr sender_name
  let packet := packet_type :: packH sender_bytes.length ++ sender_bytes ++ data
  (st.clients.filter (fun p => p.1 ≠ sender_id)).map
    (fun p => (p.2.udp_addr, packet))

/-- One iteration of `handle_udp_streams` (lines 166-191) on an inbound
datagram from `src`: parse; on a well-formed packet update the tagged
session's `udp_addr` to the packet source (if live) and fan out; on a
malformed packet do nothing. -/
def handle_udp_packet (st : ServerState) (data : List Nat)
    (src : String × Nat) : ServerState × List ((String × Nat) × List Nat) :=
  match parse_udp data with
  | none => (st, [])
  | some (packet_type, cid, payload) =>
    let st' := { st with clients := set_udp_addr st.clients cid src }
    (st', broadcast_udp st' payload cid packet_type)

/-- A media event handed to a client callback by `receive_udp_loop`. -/
inductive MediaEvent where
  | video (sender : String) (payload : List Nat)
  | audio (sender : String) (payload : List Nat)
  | screen (sender : String) (payload : List Nat)
  deriving Repr, DecidableEq

/-- One iteration of the client's `receive_udp_loop` (lines 552-594):
malformed packets are dropped, well-formed ones are demultiplexed by the
type byte into a callback event (unknown types produce nothing). -/
def receive_udp_step (data : List Nat) : Option MediaEvent :=
  match parse_udp data with
  | none => none
  | some (packet_type, sender, payload) =>
    if packet_type = 1 then some (.video sender payload)
    else if packet_type = 2 then some (.audio sender payload)
    else if packet_type = 3 then some (.screen sender payload)
    else none

/-- `struct.pack('I', n)` on a little-endian host: four bytes, low
first; raises (here `none`) when the value does not fit 32 bits. -/
def packI (n : Nat) : Option (List Nat) :=
  if n < 4294967296 then
    some [n % 256, n / 256 % 256, n / 65536 % 256, n / 16777216 % 256]
  else none

/-- `struct.unpack('I', b)[0]` on a little-endian host. -/
def unpackI (b : List Nat) : Nat :=
  b.getD 0 0 + 256 * b.getD 1 0 + 65536 * b.getD 2 0 + 16777216 * b.getD 3 0

/-- The reliable-channel frame encoder (`send_tcp_message`, lines
339-347, and the client's `_send_tcp_data`): 4-byte length prefix
followed by the payload bytes. -/
def encodeFrame (payload : List Nat) : Option (List Nat) :=
  (packI payload.length).map (fun pre => pre ++ payload)

/-- The reliable-channel frame decoder (`handle_tcp_client` lines
122-127 and the client's receive loops): `readexactly(4)` for the
length, then `readexactly(n)`; returns the payload and the rest of the
stream, or `none` when the stream is too short (IncompleteReadError). -/
def decodeFrame (stream : List Nat) : Option (List Nat × List Nat) :=
  if stream.length < 4 then none
  else
    let n := unpackI (stream.take 4)
    let rest := stream.drop 4
    if rest.length < n then none else some (rest.take n, rest.drop n)

/-- What the server hands the client's `connect` after the TCP open
succeeded: a framed reply string, or no reply within the timeout. -/
inductive HandshakeReply where
  | timeout
  | reply (s : String)
  deriving Repr, DecidableEq

/-- The client-side connection state `connect` leaves behind:
the `connected` flag, the retained session id, and whether the TCP
stream handles are still open (the source never closes them in
`connect`). -/
structure ConnectOutcome where
  success : Bool
  connected : Bool
  client_id : Option String
  tcp_open : Bool
  deriving Repr, DecidableEq

/-- Python `s.split(":")` over the character list (splitting on every
colon, keeping empty fields). -/
def splitColonAux : List Char → List Char → List String
  | [], acc => [String.mk acc.reverse]
  | ch :: rest, acc =>
    if ch = ':' then String.mk acc.reverse :: splitColonAux rest []
    else splitColonAux rest (ch :: acc)

/-- Python `s.split(":")`. -/
def pySplitColon (s : String) : List String := splitColonAux s.data []

/-- Python `s.startswith(pre)`. -/
def pyStartsWith (s pre : String) : Bool := pre.data.isPrefixOf s.data

/-- The client's `connect` (client_core.py lines 54-101) from the point
the TCP connection is open and the username sent: a timeout returns
failure; a reply starting with `CONNECTED:` stores `parts[1]` as the
session id and sets `connected`; any other reply returns failure.  No
path closes the TCP stream. -/
def connectStep (r : HandshakeReply) : ConnectOutcome :=
  match r with
  | .timeout => ⟨false, false, none, true⟩
  | .reply s =>
    if pyStartsWith s "CONNECTED:" then
      match (pySplitColon s).get? 1 with
      | some cid => ⟨true, true, some cid, true⟩
      | none => ⟨false, false, none, true⟩
    else ⟨false, false, none, true⟩

/-- Modelled from the spec: a handshake reply "of the form
`CONNECTED:<id>:<name>`" — at least three colon-separated fields whose
first is `CONNECTED`. -/
def isConnectedReplyForm (s : String) : Bool :=
  decide (3 ≤ (pySplitColon s).length) && (pySplitColon s).headD "" = "CONNECTED"

/-- Reconstruct the value from most-significant-first decimal digits. -/
def digitsVal (l : List Nat) : Nat := l.foldl (fun a d => 10 * a + d) 0

/-- The id-construction map on (display name, connect-time) pairs. -/
def mkIdPair (p : String × Nat) : String := mkClientId p.1 p.2

/-- The packet layout `[type:1][tagLen:2][tag][payload]` built by the
client's `create_udp_packet` (client_core.py lines 602-613) with the
session id as tag, and by the server's re-stamp in `broadcast_udp` with
the display name as tag. -/
def mkUdpPacket (packet_type : Nat) (tag : String) (payload : List Nat) :
    List Nat :=
  packet_type :: packH (encodeStr tag).length ++ encodeStr tag ++ payload

/-- A concrete session used by witnesses. -/
def demoAlice : Client :=
  { client_id := "alice_1", username := "alice",
    udp_addr := ("10.0.0.1", 9001), last_seen := 0 }

/-- A concrete session used by witnesses. -/
def demoBob : Client :=
  { client_id := "bob_2", username := "bob",
    udp_addr := ("10.0.0.2", 9001), last_seen := 400000 }

/-- A concrete session used by witnesses. -/
def demoCarol : Client :=
  { client_id := "carol_3", username := "carol",
    udp_addr := ("10.0.0.3", 9001), last_seen := 400000 }

/-- A concrete three-session registry used by witnesses. -/
def demoState : ServerState :=
  { clients := [("alice_1", demoAlice), ("bob_2", demoBob),
      ("carol_3", demoCarol)],
    username_to_id := [("alice", "alice_1"), ("bob", "bob_2"),
      ("carol", "carol_3")],
    room_main := ["alice_1", "bob_2", "carol_3"] }

/-- A second session that also uses the display name "alice". -/
def demoAlice9 : Client :=
  { client_id := "alice_9", username := "alice",
    udp_addr := ("10.0.0.9", 9001), last_seen := 0 }

/-- A registry holding two sessions that share the display name
"alice" (the second registration overwrote the name-map entry), as the
source produces when two peers pick the same name. -/
def dupNameState : ServerState :=
  { clients := [("alice_1", demoAlice), ("alice_9", demoAlice9)],
    username_to_id := [("alice", "alice_9")],
    room_main := ["alice_1", "alice_9"] }

/-! ### Association-list lemmas -/

theorem alookup_eq_none {α : Type} (l : List (String × α)) (k : String) :
    alookup l k = none ↔ ∀ p ∈ l, p.1 ≠ k := by
  induction l with
  | nil => simp [alookup]
  | cons hd tl ih =>
    obtain ⟨k', v⟩ := hd
    by_cases h : k' = k
    · subst h; simp [alookup]
    · simp [alookup, h, ih]

theorem alookup_mem {α : Type} {l : List (String × α)} {k : String} {v : α}
    (h : alookup l k = some v) : (k, v) ∈ l := by
  induction l with
  | nil => simp [alookup] at h
  | cons hd tl ih =>
    obtain ⟨k', w⟩ := hd
    by_cases hk : k' = k
    · subst hk; simp [alookup] at h; simp [h]
    · simp [alookup, hk] at h
      exact List.mem_cons_of_mem _ (ih h)

theorem alookup_isSome_iff {α : Type} (l : List (String × α)) (k : String) :
    (alookup l k).isSome = true ↔ k ∈ l.map Prod.fst := by
  induction l with
  | nil => simp [alookup]
  | cons hd tl ih =>
    obtain ⟨k', v⟩ := hd
    by_cases h : k' = k
    · subst h; simp [alookup]
    · simp [alookup, h, ih, Ne.symm h]

theorem amem_iff {α : Type} (l : List (String × α)) (k : String) :
    amem l k = true ↔ k ∈ l.map Prod.fst := by
  simp [amem, alookup_isSome_iff]

theorem alookup_aupdate_self {α : Type} (l : List (String × α)) (k : String)
    (v : α) : alookup (aupdate l k v) k = some v := by
  induction l with
  | nil => simp [aupdate, alookup]
  | cons hd tl ih =>
    obtain ⟨k', w⟩ := hd
    by_cases h : k' = k
    · subst h; simp [aupdate, alookup]
    · simp [aupdate, alookup, h, ih]

theorem alookup_aupdate_ne {α : Type} (l : List (String × α)) (k r : String)
    (v : α) (h : r ≠ k) : alookup (aupdate l k v) r = alookup l r := by
  induction l with
  | nil => simp [aupdate, alookup, Ne.symm h]
  | cons hd tl ih =>
    obtain ⟨k', w⟩ := hd
    by_cases hk : k' = k
    · subst hk; simp [aupdate, alookup, Ne.symm h, h]
    · by_cases hr : k' = r
      · subst hr; simp [aupdate, alookup, hk]
      · simp [aupdate, alookup, hk, hr, ih]

theorem aupdate_not_mem {α : Type} (l : List (String × α)) (k : String)
    (v : α) (h : k ∉ l.map Prod.fst) : aupdate l k v = l ++ [(k, v)] := by
  induction l with
  | nil => simp [aupdate]
  | cons hd tl ih =>
    obtain ⟨k', w⟩ := hd
    simp only [List.map_cons, List.mem_cons, not_or] at h
    simp [aupdate, Ne.symm h.1, ih h.2]

theorem keys_aupdate_mem {α : Type} (l : List (String × α)) (k : String)
    (v : α) (h : k ∈ l.map Prod.fst) :
    (aupdate l k v).map Prod.fst = l.map Prod.fst := by
  induction l with
  | nil => simp at h
  | cons hd tl ih =>
    obtain ⟨k', w⟩ := hd
    by_cases hk : k' = k
    · subst hk; simp [aupdate]
    · have h' : k ∈ tl.map Prod.fst := by
        simp only [List.map_cons, List.mem_cons] at h
        exact h.resolve_left (fun h1 => hk h1.symm)
      simp [aupdate, hk, ih h']

theorem aerase_sublist {α : Type} (l : List (String × α)) (k : String) :
    (aerase l k).Sublist l := by
  induction l with
  | nil => simp [aerase]
  | cons hd tl ih =>
    obtain ⟨k', w⟩ := hd
    by_cases h : k' = k
    · subst h; simp [aerase]
    · simpa [aerase, h] using ih.cons₂ (k', w)

theorem keys_aerase_sublist {α : Type} (l : List (String × α)) (k : String) :
    ((aerase l k).map Prod.fst).Sublist (l.map Prod.fst) :=
  (aerase_sublist l k).map Prod.fst

theorem alookup_aerase_self {α : Type} (l : List (String × α)) (k : String)
    (hnd : (l.map Prod.fst).Nodup) : alookup (aerase l k) k = none := by
  induction l with
  | nil => simp [aerase, alookup]
  | cons hd tl ih =>
    obtain ⟨k', w⟩ := hd
    simp only [List.map_cons, List.nodup_cons] at hnd
    by_cases h : k' = k
    · subst h
      rw [aerase, if_pos rfl, alookup_eq_none]
      intro p hp hpk
      exact hnd.1 (hpk ▸ List.mem_map_of_mem Prod.fst hp)
    · simp [aerase, alookup, h, ih hnd.2]

theorem alookup_aerase_ne {α : Type} (l : List (String × α)) (k r : String)
    (h : r ≠ k) : alookup (aerase l k) r = alookup l r := by
  induction l with
  | nil => simp [aerase]
  | cons hd tl ih =>
    obtain ⟨k', w⟩ := hd
    by_cases hk : k' = k
    · subst hk; simp [aerase, alookup, Ne.symm h]
    · simp [aerase, alookup, hk, ih]

theorem alookup_aerase_none {α : Type} (l : List (String × α)) (k r : String)
    (h : alookup l r = none) : alookup (aerase l k) r = none := by
  rw [alookup_eq_none] at h ⊢
  intro p hp
  exact h p ((aerase_sublist l k).mem hp)

theorem filter_ne_key_of_none {α : Type} (l : List (String × α)) (k : String)
    (h : alookup l k = none) : l.filter (fun p => p.1 ≠ k) = l := by
  rw [alookup_eq_none] at h
  exact List.filter_eq_self.mpr (fun p hp => by simpa using h p hp)

theorem filter_ne_key_length {α : Type} (l : List (String × α)) (k : String)
    (hnd : (l.map Prod.fst).Nodup) (hmem : (alookup l k).isSome = true) :
    (l.filter (fun p => p.1 ≠ k)).length = l.length - 1 := by
  induction l with
  | nil => simp [alookup] at hmem
  | cons hd tl ih =>
    obtain ⟨k', v⟩ := hd
    simp only [List.map_cons, List.nodup_cons] at hnd
    by_cases h : k' = k
    · subst h
      have htl : alookup tl k' = none := by
        rw [alookup_eq_none]
        intro p hp hpk
        exact hnd.1 (hpk ▸ List.mem_map_of_mem Prod.fst hp)
      have hfilter := filter_ne_key_of_none tl k' htl
      rw [List.filter_cons, if_neg (by simp), hfilter]
      simp
    · rw [alookup, if_neg h] at hmem
      have htl : tl.length ≥ 1 := by
        cases tl with
        | nil => simp [alookup] at hmem
        | cons a b => simp
      have hlen := ih hnd.2 hmem
      rw [List.filter_cons, if_pos (by simp [h])]
      simp only [List.length_cons]
      omega

theorem countP_key_eq_count {α : Type} (l : List (String × α)) (t : String) :
    l.countP (fun p => p.1 = t) = (l.map Prod.fst).count t := by
  induction l with
  | nil => simp
  | cons hd tl ih =>
    obtain ⟨k, v⟩ := hd
    by_cases h : k = t
    · subst h
      simp [List.countP_cons, List.count_cons, ih]
    · simp [List.countP_cons, List.count_cons, h, ih]

theorem set_udp_addr_keys (l : List (String × Client)) (cid : String)
    (src : String × Nat) :
    (set_udp_addr l cid src).map Prod.fst = l.map Prod.fst := by
  unfold set_udp_addr
  rw [List.map_map]
  apply List.map_congr_left
  intro p hp
  by_cases h : p.1 = cid <;> simp [h]

theorem set_udp_addr_cons (k : String) (v : Client)
    (tl : List (String × Client)) (cid : String) (src : String × Nat) :
    set_udp_addr ((k, v) :: tl) cid src
      = (if k = cid then (k, { v with udp_addr := src }) else (k, v))
          :: set_udp_addr tl cid src := rfl

theorem alookup_set_udp_addr_self (l : List (String × Client)) (cid : String)
    (src : String × Nat) :
    alookup (set_udp_addr l cid src) cid
      = (alookup l cid).map (fun c => { c with udp_addr := src }) := by
  induction l with
  | nil => simp [set_udp_addr, alookup]
  | cons hd tl ih =>
    obtain ⟨k, v⟩ := hd
    rw [set_udp_addr_cons]
    by_cases h : k = cid
    · subst h
      rw [if_pos rfl]
      simp [alookup]
    · rw [if_neg h]
      simp [alookup, h, ih]

theorem alookup_set_udp_addr_ne (l : List (String × Client)) (cid r : String)
    (src : String × Nat) (h : r ≠ cid) :
    alookup (set_udp_addr l cid src) r = alookup l r := by
  induction l with
  | nil => simp [set_udp_addr, alookup]
  | cons hd tl ih =>
    obtain ⟨k, v⟩ := hd
    rw [set_udp_addr_cons]
    by_cases hk : k = cid
    · subst hk
      rw [if_pos rfl]
      simp [alookup, Ne.symm h, ih]
    · rw [if_neg hk]
      by_cases hr : k = r
      · subst hr; simp [alookup]
      · simp [alookup, hr, ih]

theorem set_udp_addr_not_mem (l : List (String × Client)) (cid : String)
    (src : String × Nat) (h : alookup l cid = none) :
    set_udp_addr l cid src = l := by
  rw [alookup_eq_none] at h
  induction l with
  | nil => simp [set_udp_addr]
  | cons hd tl ih =>
    obtain ⟨k, v⟩ := hd
    have hk : k ≠ cid := h (k, v) (List.mem_cons_self _ _)
    have ih' := ih (fun p hp => h p (List.mem_cons_of_mem _ hp))
    simpa [set_udp_addr, hk] using ih'

theorem filter_set_udp_addr (l : List (String × Client)) (cid : String)
    (src : String × Nat) :
    (set_udp_addr l cid src).filter (fun p => p.1 ≠ cid)
      = l.filter (fun p => p.1 ≠ cid) := by
  induction l with
  | nil => simp [set_udp_addr]
  | cons hd tl ih =>
    obtain ⟨k, v⟩ := hd
    rw [set_udp_addr_cons]
    by_cases h : k = cid
    · subst h
      rw [if_pos rfl, List.filter_cons, List.filter_cons,
        if_neg (by simp), if_neg (by simp)]
      exact ih
    · rw [if_neg h, List.filter_cons, List.filter_cons,
        if_pos (by simp [h]), if_pos (by simp [h]), ih]

/-! ### Decimal-representation lemmas (injectivity of the generated ids) -/

theorem digitsOf_lt_ten : ∀ (fuel n d : Nat), d ∈ digitsOf fuel n → d < 10 := by
  intro fuel
  induction fuel with
  | zero => intro n d h; simp [digitsOf] at h
  | succ f ih =>
    intro n d h
    rw [digitsOf] at h
    by_cases hn : n < 10
    · rw [if_pos hn] at h
      simpa using (List.mem_singleton.mp h) ▸ hn
    · rw [if_neg hn] at h
      rcases List.mem_append.mp h with h1 | h2
      · exact ih _ _ h1
      · simpa using (List.mem_singleton.mp h2) ▸ Nat.mod_lt n (by omega)

theorem digitsVal_append_last (l : List Nat) (d : Nat) :
    digitsVal (l ++ [d]) = 10 * digitsVal l + d := by
  simp [digitsVal, List.foldl_append]

theorem digitsVal_digitsOf : ∀ (fuel n : Nat), n < fuel →
    digitsVal (digitsOf fuel n) = n := by
  intro fuel
  induction fuel with
  | zero => intro n h; omega
  | succ f ih =>
    intro n h
    rw [digitsOf]
    by_cases hn : n < 10
    · rw [if_pos hn]; simp [digitsVal]
    · rw [if_neg hn, digitsVal_append_last]
      have hdiv : n / 10 < f := by
        have h1 : n / 10 < n := Nat.div_lt_self (by omega) (by omega)
        omega
      rw [ih _ hdiv]
      omega

theorem natDigits_inj (m1 m2 : Nat)
    (h : digitsOf (m1 + 1) m1 = digitsOf (m2 + 1) m2) : m1 = m2 := by
  have h1 := digitsVal_digitsOf (m1 + 1) m1 (by omega)
  have h2 := digitsVal_digitsOf (m2 + 1) m2 (by omega)
  rw [← h1, ← h2, h]

theorem digitChar_inj_lt :
    ∀ d1, d1 < 10 → ∀ d2, d2 < 10 → digitChar d1 = digitChar d2 → d1 = d2 := by
  decide

theorem digitChar_ne_underscore : ∀ d, d < 10 → digitChar d ≠ '_' := by
  decide

theorem map_digitChar_inj : ∀ (l1 l2 : List Nat), (∀ d ∈ l1, d < 10) →
    (∀ d ∈ l2, d < 10) → l1.map digitChar = l2.map digitChar → l1 = l2 := by
  intro l1
  induction l1 with
  | nil => intro l2 _ _ h; cases l2 <;> simp_all
  | cons d1 t1 ih =>
    intro l2 h1 h2 h
    cases l2 with
    | nil => simp at h
    | cons d2 t2 =>
      simp only [List.map_cons, List.cons.injEq] at h
      have hd := digitChar_inj_lt d1 (h1 d1 (by simp)) d2 (h2 d2 (by simp)) h.1
      have ht := ih t2 (fun d hd => h1 d (by simp [hd]))
        (fun d hd => h2 d (by simp [hd])) h.2
      rw [hd, ht]

theorem natStr_inj (m1 m2 : Nat) (h : natStr m1 = natStr m2) : m1 = m2 := by
  unfold natStr at h
  have hdata := congrArg String.data h
  simp only [String.data] at hdata
  exact natDigits_inj m1 m2
    (map_digitChar_inj _ _ (fun d hd => digitsOf_lt_ten _ _ _ hd)
      (fun d hd => digitsOf_lt_ten _ _ _ hd) hdata)

theorem natStr_no_underscore (n : Nat) : '_' ∉ (natStr n).data := by
  unfold natStr
  simp only [String.data]
  intro hmem
  rcases List.mem_map.mp hmem with ⟨d, hd, hdc⟩
  exact digitChar_ne_underscore d (digitsOf_lt_ten _ _ _ hd) hdc

/-- Splitting a character list at a separator that occurs in neither
suffix is unambiguous. -/
theorem sep_split : ∀ (a1 a2 b1 b2 : List Char), '_' ∉ b1 → '_' ∉ b2 →
    a1 ++ '_' :: b1 = a2 ++ '_' :: b2 → a1 = a2 ∧ b1 = b2 := by
  intro a1
  induction a1 with
  | nil =>
    intro a2 b1 b2 hb1 hb2 h
    cases a2 with
    | nil => simpa using h
    | cons c t =>
      simp only [List.nil_append, List.cons_append, List.cons.injEq] at h
      exact absurd (h.2 ▸ (by simp : '_' ∈ t ++ '_' :: b2)) hb1
  | cons c t ih =>
    intro a2 b1 b2 hb1 hb2 h
    cases a2 with
    | nil =>
      simp only [List.nil_append, List.cons_append, List.cons.injEq] at h
      exact absurd (h.2.symm ▸ (by simp : '_' ∈ t ++ '_' :: b1)) hb2
    | cons c2 t2 =>
      simp only [List.cons_append, List.cons.injEq] at h
      obtain ⟨ht, hb⟩ := ih t2 b1 b2 hb1 hb2 h.2
      exact ⟨by rw [h.1, ht], hb⟩

theorem string_append_data (s t : String) : (s ++ t).data = s.data ++ t.data :=
  rfl

theorem string_data_inj {s t : String} (h : s.data = t.data) : s = t := by
  cases s; cases t; exact congrArg String.mk h

theorem mkClientId_inj (u1 u2 : String) (m1 m2 : Nat)
    (h : mkClientId u1 m1 = mkClientId u2 m2) : u1 = u2 ∧ m1 = m2 := by
  unfold mkClientId at h
  have hdata := congrArg String.data h
  rw [string_append_data, string_append_data, string_append_data,
    string_append_data] at hdata
  have hsep : u1.data ++ '_' :: (natStr m1).data
      = u2.data ++ '_' :: (natStr m2).data := by
    simpa using hdata
  obtain ⟨hu, hm⟩ := sep_split u1.data u2.data (natStr m1).data
    (natStr m2).data (natStr_no_underscore m1) (natStr_no_underscore m2) hsep
  exact ⟨string_data_inj hu, natStr_inj m1 m2 (string_data_inj hm)⟩

theorem mkIdPair_injective : Function.Injective mkIdPair := by
  intro p1 p2 h
  obtain ⟨hu, hm⟩ := mkClientId_inj p1.1 p2.1 p1.2 p2.2 h
  exact Prod.ext hu hm

/-! ### C1: session-id uniqueness and registry count -/

theorem runHandshakes_keys (udp_port : Nat) :
    ∀ (hs : List Handshake) (st : ServerState),
    (∀ h ∈ hs, h.username ≠ "") →
    (st.clients.map Prod.fst
      ++ hs.map (fun h => mkClientId h.username h.now_ms)).Nodup →
    (runHandshakes udp_port st hs).clients.map Prod.fst
      = st.clients.map Prod.fst
        ++ hs.map (fun h => mkClientId h.username h.now_ms) := by
  intro hs
  induction hs with
  | nil => intro st _ _; simp [runHandshakes]
  | cons h rest ih =>
    intro st hne hnd
    have hu : h.username ≠ "" := hne h (by simp)
    rw [List.map_cons] at hnd
    set cid := mkClientId h.username h.now_ms with hcid
    set c : Client :=
      { client_id := cid, username := h.username,
        udp_addr := (h.tcp_ip, udp_port), last_seen := h.now_ms } with hc
    set st2 : ServerState :=
      { clients := aupdate st.clients cid c,
        username_to_id := aupdate st.username_to_id h.username cid,
        room_main := sadd st.room_main cid } with hst2
    have hfresh : cid ∉ st.clients.map Prod.fst := by
      intro hmem
      exact (List.nodup_append.mp hnd).2.2 hmem (by simp)
    have hrun : runHandshakes udp_port st (h :: rest)
        = runHandshakes udp_port st2 rest := by
      rw [runHandshakes, handshake, if_neg hu]
    have hkeys : st2.clients.map Prod.fst
        = st.clients.map Prod.fst ++ [cid] := by
      rw [hst2]
      simp only
      rw [aupdate_not_mem _ _ _ hfresh, List.map_append]
      rfl
    rw [hrun, ih st2 (fun h2 hh2 => hne h2 (by simp [hh2]))
      (by rw [hkeys, List.append_assoc]; simpa using hnd)]
    rw [hkeys, List.append_assoc]
    rfl

/-- C1 counterexample: two successful handshakes that share display name
"alice" and connect-time millisecond 5 produce the same session id
twice (not pairwise distinct) and leave the registry with 1 session,
not 2 — the second registration overwrites the first. -/
theorem C1_counterexample :
    (∀ h ∈ [Handshake.mk "alice" 5 "ip1", Handshake.mk "alice" 5 "ip2"],
      h.username ≠ "")
    ∧ ¬ ([Handshake.mk "alice" 5 "ip1", Handshake.mk "alice" 5 "ip2"].map
          (fun h => mkClientId h.username h.now_ms)).Nodup
    ∧ (runHandshakes 9001 emptyState
        [Handshake.mk "alice" 5 "ip1",
         Handshake.mk "alice" 5 "ip2"]).clients.length = 1 := by
  refine ⟨by decide, by decide, by decide⟩

/-- C1 (amended): for every sequence of N successful handshakes in
which no two share both the display name and the millisecond connect
timestamp, the N session ids produced by the registration step are
pairwise distinct, they are exactly the registry's keys, and the
registry's session count equals N.  (The source derives the id from
`(display_name, connect-time-ms)`, so two handshakes agreeing on both
collide — see the counterexample.) -/
theorem C1_id_uniqueness (hs : List Handshake)
    (hne : ∀ h ∈ hs, h.username ≠ "")
    (hnd : (hs.map (fun h => (h.username, h.now_ms))).Nodup) :
    (hs.map (fun h => mkClientId h.username h.now_ms)).Nodup
    ∧ (runHandshakes 9001 emptyState hs).clients.map Prod.fst
        = hs.map (fun h => mkClientId h.username h.now_ms)
    ∧ (runHandshakes 9001 emptyState hs).clients.length = hs.length := by
  have hids : (hs.map (fun h => mkClientId h.username h.now_ms)).Nodup := by
    have : hs.map (fun h => mkClientId h.username h.now_ms)
        = (hs.map (fun h => (h.username, h.now_ms))).map mkIdPair := by
      rw [List.map_map]; rfl
    rw [this]
    exact hnd.map mkIdPair_injective
  have hkeys := runHandshakes_keys 9001 hs emptyState hne
    (by simpa [emptyState] using hids)
  refine ⟨hids, by simpa [emptyState] using hkeys, ?_⟩
  have hlen := congrArg List.length hkeys
  simpa [emptyState] using hlen

/-- C1 witness: three successful handshakes with pairwise-distinct
(name, millisecond) pairs. -/
theorem C1_id_uniqueness_witness :
    ((∀ h ∈ [Handshake.mk "alice" 1 "ip1", Handshake.mk "bob" 1 "ip2",
        Handshake.mk "alice" 2 "ip1"], h.username ≠ "")
      ∧ ([Handshake.mk "alice" 1 "ip1", Handshake.mk "bob" 1 "ip2",
        Handshake.mk "alice" 2 "ip1"].map
          (fun h => (h.username, h.now_ms))).Nodup)
    ∧ (([Handshake.mk "alice" 1 "ip1", Handshake.mk "bob" 1 "ip2",
        Handshake.mk "alice" 2 "ip1"].map
          (fun h => mkClientId h.username h.now_ms)).Nodup
      ∧ (runHandshakes 9001 emptyState
          [Handshake.mk "alice" 1 "ip1", Handshake.mk "bob" 1 "ip2",
            Handshake.mk "alice" 2 "ip1"]).clients.map Prod.fst
        = [Handshake.mk "alice" 1 "ip1", Handshake.mk "bob" 1 "ip2",
            Handshake.mk "alice" 2 "ip1"].map
            (fun h => mkClientId h.username h.now_ms)
      ∧ (runHandshakes 9001 emptyState
          [Handshake.mk "alice" 1 "ip1", Handshake.mk "bob" 1 "ip2",
            Handshake.mk "alice" 2 "ip1"]).clients.length = 3) :=
  ⟨⟨by decide, by decide⟩,
    C1_id_uniqueness _ (by decide) (by decide)⟩

/-! ### C2: what each session-ending path removes -/

theorem not_amem_eq_none {α : Type} {l : List (String × α)} {k : String}
    (h : ¬ amem l k = true) : alookup l k = none := by
  cases ho : alookup l k with
  | none => rfl
  | some v => exact absurd (by simp [amem, ho]) h

theorem foldl_erase_preserves_none :
    ∀ (ids : List String) (cs : List (String × Client)) (cid : String),
    alookup cs cid = none →
    alookup (ids.foldl
      (fun cs2 c2 => if amem cs2 c2 then aerase cs2 c2 else cs2) cs) cid
      = none := by
  intro ids
  induction ids with
  | nil => intro cs cid h; simpa using h
  | cons i rest ih =>
    intro cs cid h
    rw [List.foldl_cons]
    by_cases hm : amem cs i
    · rw [if_pos hm]
      exact ih _ _ (alookup_aerase_none cs i cid h)
    · rw [if_neg hm]
      exact ih _ _ h

theorem foldl_erase_nodup :
    ∀ (ids : List String) (cs : List (String × Client)),
    (cs.map Prod.fst).Nodup →
    ((ids.foldl
      (fun cs2 c2 => if amem cs2 c2 then aerase cs2 c2 else cs2) cs).map
        Prod.fst).Nodup := by
  intro ids
  induction ids with
  | nil => intro cs h; simpa using h
  | cons i rest ih =>
    intro cs h
    rw [List.foldl_cons]
    by_cases hm : amem cs i
    · rw [if_pos hm]
      exact ih _ ((keys_aerase_sublist cs i).nodup h)
    · rw [if_neg hm]
      exact ih _ h

theorem foldl_erase_removes :
    ∀ (ids : List String) (cs : List (String × Client)),
    (cs.map Prod.fst).Nodup → ∀ cid ∈ ids,
    alookup (ids.foldl
      (fun cs2 c2 => if amem cs2 c2 then aerase cs2 c2 else cs2) cs) cid
      = none := by
  intro ids
  induction ids with
  | nil => intro cs _ cid h; simp at h
  | cons i rest ih =>
    intro cs hnd cid hcid
    rw [List.foldl_cons]
    rcases List.mem_cons.mp hcid with h1 | h2
    · subst h1
      by_cases hm : amem cs cid
      · rw [if_pos hm]
        exact foldl_erase_preserves_none rest _ cid
          (alookup_aerase_self cs cid hnd)
      · rw [if_neg hm]
        exact foldl_erase_preserves_none rest _ cid (not_amem_eq_none hm)
    · by_cases hm : amem cs i
      · rw [if_pos hm]
        exact ih _ ((keys_aerase_sublist cs i).nodup hnd) cid h2
      · rw [if_neg hm]
        exact ih _ hnd cid h2

/-- C2 counterexample: a session evicted by the liveness sweep is
removed from the client table only — its display-name mapping and its
room-set membership survive, so the sweep does not remove it from all
three indexes. -/
theorem C2_counterexample :
    (cleanup_inactive
      { clients := [("alice_5",
          { client_id := "alice_5", username := "alice",
            udp_addr := ("ip", 9001), last_seen := 0 })],
        username_to_id := [("alice", "alice_5")],
        room_main := ["alice_5"] } 300001).1.clients = []
    ∧ (cleanup_inactive
      { clients := [("alice_5",
          { client_id := "alice_5", username := "alice",
            udp_addr := ("ip", 9001), last_seen := 0 })],
        username_to_id := [("alice", "alice_5")],
        room_main := ["alice_5"] } 300001).1.username_to_id
        = [("alice", "alice_5")]
    ∧ (cleanup_inactive
      { clients := [("alice_5",
          { client_id := "alice_5", username := "alice",
            udp_addr := ("ip", 9001), last_seen := 0 })],
        username_to_id := [("alice", "alice_5")],
        room_main := ["alice_5"] } 300001).1.room_main = ["alice_5"] := by
  refine ⟨by decide, by decide, by decide⟩

/-- C2 (amended): the connection-close path (read failure or frame
timeout) removes the session from all three indexes, performs exactly
one deregistration (a second removal is a no-op with no rebroadcast),
and triggers one presence rebroadcast; the liveness-sweep eviction
removes evicted sessions from the client table only — the
display-name map and the room membership set are left untouched — and
triggers one rebroadcast exactly when some session was evicted. -/
theorem C2_session_end_paths (st : ServerState) (cid : String) (now : Nat)
    (hwf : WF st) :
    (∀ c, alookup st.clients cid = some c →
      alookup (cleanup_connection st cid).1.clients cid = none
      ∧ alookup (cleanup_connection st cid).1.username_to_id c.username = none
      ∧ cid ∉ (cleanup_connection st cid).1.room_main
      ∧ (cleanup_connection st cid).2 = true
      ∧ cleanup_connection (cleanup_connection st cid).1 cid
          = ((cleanup_connection st cid).1, false))
    ∧ (alookup st.clients cid = none →
        cleanup_connection st cid = (st, false))
    ∧ (∀ p ∈ st.clients, 300000 < now - p.2.last_seen →
        alookup (cleanup_inactive st now).1.clients p.1 = none)
    ∧ (cleanup_inactive st now).1.username_to_id = st.username_to_id
    ∧ (cleanup_inactive st now).1.room_main = st.room_main
    ∧ ((cleanup_inactive st now).2 = true ↔
        ∃ p ∈ st.clients, 300000 < now - p.2.last_seen) := by
  obtain ⟨hndc, hndu⟩ := hwf
  refine ⟨?_, ?_, ?_, ?_, ?_, ?_⟩
  · intro c hc
    have h1 : cleanup_connection st cid =
        ({ clients := aerase st.clients cid,
           username_to_id :=
             if amem st.username_to_id c.username then
               aerase st.username_to_id c.username
             else st.username_to_id,
           room_main := sdiscard st.room_main cid }, true) := by
      rw [cleanup_connection, hc]
    rw [h1]
    refine ⟨alookup_aerase_self st.clients cid hndc, ?_, ?_, rfl, ?_⟩
    · by_cases hm : amem st.username_to_id c.username
      · simp only [if_pos hm]
        exact alookup_aerase_self st.username_to_id c.username hndu
      · simp only [if_neg hm]
        exact not_amem_eq_none hm
    · simp [sdiscard, List.mem_filter]
    · rw [cleanup_connection]
      simp only
      rw [alookup_aerase_self st.clients cid hndc]
  · intro hnone
    rw [cleanup_connection, hnone]
  · intro p hp hstale
    rw [cleanup_inactive]
    simp only
    apply foldl_erase_removes _ _ hndc
    rw [List.mem_map]
    exact ⟨p, List.mem_filter.mpr ⟨hp, by simpa using hstale⟩, rfl⟩
  · rw [cleanup_inactive]
  · rw [cleanup_inactive]
  · constructor
    · intro h
      have hne : st.clients.filter
          (fun q => 300000 < now - q.2.last_seen) ≠ [] := by
        intro hnil
        simp [cleanup_inactive, hnil] at h
      rcases List.exists_mem_of_ne_nil _ hne with ⟨p, hp⟩
      exact ⟨p, (List.mem_filter.mp hp).1,
        by simpa using (List.mem_filter.mp hp).2⟩
    · rintro ⟨p, hp, hstale⟩
      have hmem : p ∈ st.clients.filter
          (fun q => 300000 < now - q.2.last_seen) :=
        List.mem_filter.mpr ⟨hp, by simpa using hstale⟩
      cases hflt : st.clients.filter (fun q => 300000 < now - q.2.last_seen) with
      | nil =>
        rw [hflt] at hmem
        simp at hmem
      | cons a t => simp [cleanup_inactive, hflt]

/-- C2 witness: the three-session demo registry, closing and sweeping
the session `alice_1`. -/
theorem C2_session_end_paths_witness :
    WF demoState
    ∧ ((∀ c, alookup demoState.clients "alice_1" = some c →
        alookup (cleanup_connection demoState "alice_1").1.clients "alice_1"
          = none
        ∧ alookup (cleanup_connection demoState "alice_1").1.username_to_id
            c.username = none
        ∧ "alice_1" ∉ (cleanup_connection demoState "alice_1").1.room_main
        ∧ (cleanup_connection demoState "alice_1").2 = true
        ∧ cleanup_connection (cleanup_connection demoState "alice_1").1
            "alice_1"
          = ((cleanup_connection demoState "alice_1").1, false))
      ∧ (alookup demoState.clients "alice_1" = none →
          cleanup_connection demoState "alice_1" = (demoState, false))
      ∧ (∀ p ∈ demoState.clients, 300000 < 301000 - p.2.last_seen →
          alookup (cleanup_inactive demoState 301000).1.clients p.1 = none)
      ∧ (cleanup_inactive demoState 301000).1.username_to_id
          = demoState.username_to_id
      ∧ (cleanup_inactive demoState 301000).1.room_main
          = demoState.room_main
      ∧ ((cleanup_inactive demoState 301000).2 = true ↔
          ∃ p ∈ demoState.clients, 300000 < 301000 - p.2.last_seen)) :=
  ⟨by unfold WF; decide,
    C2_session_end_paths demoState "alice_1" 301000 (by unfold WF; decide)⟩

/-! ### C3: chat fan-out reaches exactly the other sessions -/

/-- C3: with N sessions registered and session S sending `CHAT:<text>`,
the framed message `CHAT:<S's display name>:<text>` is issued to
exactly the other N−1 sessions (every one of them, and never to S),
and — the sends being gathered with per-recipient exception isolation —
a recipient's delivery depends only on that recipient's own failure,
never on another's. -/
theorem C3_chat_broadcast (st : ServerState) (S : String) (c : Client)
    (msg : String) (hwf : WF st) (hS : alookup st.clients S = some c) :
    (broadcast_chat st S msg).length = st.clients.length - 1
    ∧ (∀ p ∈ broadcast_chat st S msg,
        p.1 ≠ S ∧ p.2 = "CHAT:" ++ c.username ++ ":" ++ msg)
    ∧ (∀ r, r ≠ S → amem st.clients r = true →
        (r, "CHAT:" ++ c.username ++ ":" ++ msg) ∈ broadcast_chat st S msg)
    ∧ (∀ fails r m, (r, m) ∈ deliveredTo (broadcast_chat st S msg) fails ↔
        ((r, m) ∈ broadcast_chat st S msg ∧ fails r = false)) := by
  have hbc : broadcast_chat st S msg
      = (st.clients.filter (fun p => p.1 ≠ S)).map
          (fun p => (p.1, "CHAT:" ++ c.username ++ ":" ++ msg)) := by
    rw [broadcast_chat, hS]
  refine ⟨?_, ?_, ?_, ?_⟩
  · rw [hbc, List.length_map]
    exact filter_ne_key_length st.clients S hwf.1 (by simp [hS])
  · intro p hp
    rw [hbc] at hp
    rcases List.mem_map.mp hp with ⟨q, hq, hqp⟩
    have hqS : q.1 ≠ S := by simpa using (List.mem_filter.mp hq).2
    exact ⟨hqp ▸ hqS, hqp ▸ rfl⟩
  · intro r hr hmem
    rw [hbc]
    rcases Option.isSome_iff_exists.mp (by simpa [amem] using hmem)
      with ⟨cr, hcr⟩
    exact List.mem_map.mpr ⟨(r, cr),
      List.mem_filter.mpr ⟨alookup_mem hcr, by simpa using hr⟩, rfl⟩
  · intro fails r m
    simp [deliveredTo, List.mem_filter]

/-- C3 witness: "alice_1" chats to the three-session demo registry;
the hypotheses are discharged at that concrete state. -/
theorem C3_chat_broadcast_witness :
    (WF demoState ∧ alookup demoState.clients "alice_1" = some demoAlice)
    ∧ ((broadcast_chat demoState "alice_1" "hi").length
        = demoState.clients.length - 1
      ∧ (∀ p ∈ broadcast_chat demoState "alice_1" "hi",
          p.1 ≠ "alice_1" ∧ p.2 = "CHAT:" ++ demoAlice.username ++ ":" ++ "hi")
      ∧ (∀ r, r ≠ "alice_1" → amem demoState.clients r = true →
          (r, "CHAT:" ++ demoAlice.username ++ ":" ++ "hi")
            ∈ broadcast_chat demoState "alice_1" "hi")
      ∧ (∀ fails r m,
          (r, m) ∈ deliveredTo (broadcast_chat demoState "alice_1" "hi") fails
          ↔ ((r, m) ∈ broadcast_chat demoState "alice_1" "hi"
              ∧ fails r = false))) :=
  ⟨⟨by unfold WF; decide, by decide⟩,
    C3_chat_broadcast demoState "alice_1" demoAlice "hi"
      (by unfold WF; decide) (by decide)⟩

/-! ### C4: control messages set a flag and broadcast a status delta -/

theorem countP_key_filter_map_eq_zero (l : List (String × Client))
    (S t : String) (m : String) (hmem : t ∉ l.map Prod.fst) :
    ((l.filter (fun p => p.1 ≠ S)).map (fun p => (p.1, m))).countP
      (fun p => p.1 = t) = 0 := by
  rw [List.countP_eq_zero]
  intro p hp
  rcases List.mem_map.mp hp with ⟨q, hq, hqp⟩
  have hql : q ∈ l := (List.mem_filter.mp hq).1
  simp only [← hqp, decide_eq_true_eq]
  intro hqt
  exact hmem (hqt ▸ List.mem_map_of_mem Prod.fst hql)

theorem countP_key_filter_map_eq_one (l : List (String × Client))
    (S t : String) (m : String) (ht : t ≠ S)
    (hnd : (l.map Prod.fst).Nodup) (hmem : t ∈ l.map Prod.fst) :
    ((l.filter (fun p => p.1 ≠ S)).map (fun p => (p.1, m))).countP
      (fun p => p.1 = t) = 1 := by
  induction l with
  | nil => simp at hmem
  | cons hd tl ih =>
    obtain ⟨k, v⟩ := hd
    simp only [List.map_cons, List.nodup_cons] at hnd
    rw [List.filter_cons]
    by_cases hk : k = t
    · subst hk
      rw [if_pos (by simp [ht]), List.map_cons, List.countP_cons]
      rw [countP_key_filter_map_eq_zero tl S k m hnd.1]
      simp
    · have htl : t ∈ tl.map Prod.fst := by
        simp only [List.map_cons, List.mem_cons] at hmem
        exact hmem.resolve_left (fun h1 => hk h1.symm)
      by_cases hkS : k = S
      · rw [if_neg (by simp [hkS])]
        exact ih hnd.2 htl
      · rw [if_pos (by simp [hkS]), List.map_cons, List.countP_cons]
        rw [ih hnd.2 htl]
        simp [hk]

theorem countP_key_filter_map_self (l : List (String × Client))
    (S : String) (m : String) :
    ((l.filter (fun p => p.1 ≠ S)).map (fun p => (p.1, m))).countP
      (fun p => p.1 = S) = 0 := by
  rw [List.countP_eq_zero]
  intro p hp
  rcases List.mem_map.mp hp with ⟨q, hq, hqp⟩
  have := (List.mem_filter.mp hq).2
  simp only [← hqp]
  simpa using this

/-- C4: on `CONTROL:<flag toggle>` from session S the server sets the
matching capability flag on S's own record (no other record changes),
then issues one `STATUS:<json {username,video,audio,screen}>` send to
every other registered session — exactly once per recipient — and none
to S itself. -/
theorem C4_control_status (st : ServerState) (S : String) (c : Client)
    (control : String) (hwf : WF st) (hS : alookup st.clients S = some c)
    (hctl : control ∈ ["VIDEO_ON", "VIDEO_OFF", "AUDIO_ON", "AUDIO_OFF",
      "SCREEN_ON", "SCREEN_OFF"]) :
    (control = "VIDEO_ON" →
      alookup (handle_control st S control).1.clients S
        = some { c with video_active := true })
    ∧ (control = "VIDEO_OFF" →
      alookup (handle_control st S control).1.clients S
        = some { c with video_active := false })
    ∧ (control = "AUDIO_ON" →
      alookup (handle_control st S control).1.clients S
        = some { c with audio_active := true })
    ∧ (control = "AUDIO_OFF" →
      alookup (handle_control st S control).1.clients S
        = some { c with audio_active := false })
    ∧ (control = "SCREEN_ON" →
      alookup (handle_control st S control).1.clients S
        = some { c with screen_sharing := true })
    ∧ (control = "SCREEN_OFF" →
      alookup (handle_control st S control).1.clients S
        = some { c with screen_sharing := false })
    ∧ (∀ r, r ≠ S →
        alookup (handle_control st S control).1.clients r
          = alookup st.clients r)
    ∧ (∃ cu, alookup (handle_control st S control).1.clients S = some cu
        ∧ ∀ p ∈ (handle_control st S control).2,
            p.1 ≠ S ∧ p.2 = "STATUS:" ++ statusJson cu)
    ∧ (∀ r, r ≠ S → amem st.clients r = true →
        (handle_control st S control).2.countP (fun p => p.1 = r) = 1)
    ∧ (handle_control st S control).2.countP (fun p => p.1 = S) = 0 := by
  set c' : Client :=
    (if control = "VIDEO_ON" then { c with video_active := true }
      else if control = "VIDEO_OFF" then { c with video_active := false }
      else if control = "AUDIO_ON" then { c with audio_active := true }
      else if control = "AUDIO_OFF" then { c with audio_active := false }
      else if control = "SCREEN_ON" then { c with screen_sharing := true }
      else if control = "SCREEN_OFF" then { c with screen_sharing := false }
      else c) with hc'
  have hhc : handle_control st S control
      = ({ st with clients := aupdate st.clients S c' },
         broadcast_user_status
           { st with clients := aupdate st.clients S c' } S) := by
    rw [handle_control, hS]
  have hlook : alookup (aupdate st.clients S c') S = some c' :=
    alookup_aupdate_self st.clients S c'
  have hsends : broadcast_user_status
      { st with clients := aupdate st.clients S c' } S
      = ((aupdate st.clients S c').filter (fun p => p.1 ≠ S)).map
          (fun p => (p.1, "STATUS:" ++ statusJson c')) := by
    rw [broadcast_user_status]
    simp only
    rw [hlook]
  have hkeys : (aupdate st.clients S c').map Prod.fst
      = st.clients.map Prod.fst :=
    keys_aupdate_mem st.clients S c'
      ((alookup_isSome_iff st.clients S).mp (by simp [hS]))
  have hstate : (handle_control st S control).1
      = { st with clients := aupdate st.clients S c' } := by
    rw [hhc]
  have hsends2 : (handle_control st S control).2
      = ((aupdate st.clients S c').filter (fun p => p.1 ≠ S)).map
          (fun p => (p.1, "STATUS:" ++ statusJson c')) := by
    rw [hhc]
    exact hsends
  refine ⟨?_, ?_, ?_, ?_, ?_, ?_, ?_, ?_, ?_, ?_⟩
  · intro h; subst h
    rw [hstate, hc', if_pos rfl]
    exact alookup_aupdate_self st.clients S _
  · intro h; subst h
    rw [hstate, hc', if_neg (by decide), if_pos rfl]
    exact alookup_aupdate_self st.clients S _
  · intro h; subst h
    rw [hstate, hc', if_neg (by decide), if_neg (by decide), if_pos rfl]
    exact alookup_aupdate_self st.clients S _
  · intro h; subst h
    rw [hstate, hc', if_neg (by decide), if_neg (by decide),
      if_neg (by decide), if_pos rfl]
    exact alookup_aupdate_self st.clients S _
  · intro h; subst h
    rw [hstate, hc', if_neg (by decide), if_neg (by decide),
      if_neg (by decide), if_neg (by decide), if_pos rfl]
    exact alookup_aupdate_self st.clients S _
  · intro h; subst h
    rw [hstate, hc', if_neg (by decide), if_neg (by decide),
      if_neg (by decide), if_neg (by decide), if_neg (by decide),
      if_pos rfl]
    exact alookup_aupdate_self st.clients S _
  · intro r hr
    rw [hstate]
    exact alookup_aupdate_ne st.clients S r c' hr
  · refine ⟨c', by rw [hstate]; exact hlook, ?_⟩
    intro p hp
    rw [hsends2] at hp
    rcases List.mem_map.mp hp with ⟨q, hq, hqp⟩
    have hqS : q.1 ≠ S := by simpa using (List.mem_filter.mp hq).2
    exact ⟨hqp ▸ hqS, hqp ▸ rfl⟩
  · intro r hr hmem
    rw [hsends2]
    exact countP_key_filter_map_eq_one _ S r _ hr (hkeys ▸ hwf.1)
      (hkeys ▸ (amem_iff st.clients r).mp hmem)
  · rw [hsends2]
    exact countP_key_filter_map_self _ S _

/-- C4 witness: "alice_1" sends `CONTROL:VIDEO_ON` in the three-session
demo registry. -/
theorem C4_control_status_witness :
    (WF demoState ∧ alookup demoState.clients "alice_1" = some demoAlice
      ∧ "VIDEO_ON" ∈ ["VIDEO_ON", "VIDEO_OFF", "AUDIO_ON", "AUDIO_OFF",
          "SCREEN_ON", "SCREEN_OFF"])
    ∧ (("VIDEO_ON" = "VIDEO_ON" →
        alookup (handle_control demoState "alice_1" "VIDEO_ON").1.clients
            "alice_1"
          = some { demoAlice with video_active := true })
      ∧ ("VIDEO_ON" = "VIDEO_OFF" →
        alookup (handle_control demoState "alice_1" "VIDEO_ON").1.clients
            "alice_1"
          = some { demoAlice with video_active := false })
      ∧ ("VIDEO_ON" = "AUDIO_ON" →
        alookup (handle_control demoState "alice_1" "VIDEO_ON").1.clients
            "alice_1"
          = some { demoAlice with audio_active := true })
      ∧ ("VIDEO_ON" = "AUDIO_OFF" →
        alookup (handle_control demoState "alice_1" "VIDEO_ON").1.clients
            "alice_1"
          = some { demoAlice with audio_active := false })
      ∧ ("VIDEO_ON" = "SCREEN_ON" →
        alookup (handle_control demoState "alice_1" "VIDEO_ON").1.clients
            "alice_1"
          = some { demoAlice with screen_sharing := true })
      ∧ ("VIDEO_ON" = "SCREEN_OFF" →
        alookup (handle_control demoState "alice_1" "VIDEO_ON").1.clients
            "alice_1"
          = some { demoAlice with screen_sharing := false })
      ∧ (∀ r, r ≠ "alice_1" →
          alookup (handle_control demoState "alice_1" "VIDEO_ON").1.clients r
            = alookup demoState.clients r)
      ∧ (∃ cu, alookup (handle_control demoState "alice_1"
            "VIDEO_ON").1.clients "alice_1" = some cu
          ∧ ∀ p ∈ (handle_control demoState "alice_1" "VIDEO_ON").2,
              p.1 ≠ "alice_1" ∧ p.2 = "STATUS:" ++ statusJson cu)
      ∧ (∀ r, r ≠ "alice_1" → amem demoState.clients r = true →
          (handle_control demoState "alice_1" "VIDEO_ON").2.countP
            (fun p => p.1 = r) = 1)
      ∧ (handle_control demoState "alice_1" "VIDEO_ON").2.countP
          (fun p => p.1 = "alice_1") = 0) :=
  ⟨⟨by unfold WF; decide, by decide, by decide⟩,
    C4_control_status demoState "alice_1" demoAlice "VIDEO_ON"
      (by unfold WF; decide) (by decide) (by decide)⟩

/-! ### C5: UDP re-stamp and fan-out -/

theorem take_append_len {α : Type} (l1 l2 : List α) :
    (l1 ++ l2).take l1.length = l1 := by
  induction l1 with
  | nil => simp
  | cons a t ih => simp [ih]

theorem drop_append_len {α : Type} (l1 l2 : List α) :
    (l1 ++ l2).drop l1.length = l2 := by
  induction l1 with
  | nil => simp
  | cons a t ih => simp [ih]

theorem drop_three_cons {α : Type} (a b c : α) (l : List α) (k : Nat) :
    (a :: b :: c :: l).drop (3 + k) = l.drop k := by
  have h : 3 + k = k + 3 := by omega
  rw [h]
  rfl

theorem decodeBytes_encodeStr (s : String) :
    decodeBytes (encodeStr s) = s := by
  have h : (encodeStr s).map Char.ofNat = s.data := by
    rw [encodeStr, List.map_map]
    have hcongr : s.data.map (Char.ofNat ∘ Char.toNat) = s.data.map id :=
      List.map_congr_left (fun c _ => Char.ofNat_toNat c)
    rw [hcongr, List.map_id]
  rw [decodeBytes, h]

theorem parse_mkUdpPacket (t : Nat) (tag : String) (P : List Nat)
    (hn : (encodeStr tag).length < 65536) :
    parse_udp (mkUdpPacket t tag P) = some (t, tag, P) := by
  have hdata : mkUdpPacket t tag P
      = t :: (encodeStr tag).length % 256
          :: (encodeStr tag).length / 256 % 256 :: (encodeStr tag ++ P) := by
    rw [mkUdpPacket, packH]
    rfl
  rw [hdata, parse_udp]
  rw [if_neg (by simp only [List.length_cons]; omega)]
  have hg1 : (t :: (encodeStr tag).length % 256
      :: (encodeStr tag).length / 256 % 256
      :: (encodeStr tag ++ P)).getD 1 0 = (encodeStr tag).length % 256 := rfl
  have hg2 : (t :: (encodeStr tag).length % 256
      :: (encodeStr tag).length / 256 % 256
      :: (encodeStr tag ++ P)).getD 2 0
      = (encodeStr tag).length / 256 % 256 := rfl
  simp only [hg1, hg2]
  have hunp : unpackH ((encodeStr tag).length % 256)
      ((encodeStr tag).length / 256 % 256) = (encodeStr tag).length := by
    rw [unpackH]
    omega
  rw [hunp]
  rw [if_neg (by
    simp only [List.length_cons, List.length_append]
    omega)]
  have hdrop3 : (t :: (encodeStr tag).length % 256
      :: (encodeStr tag).length / 256 % 256
      :: (encodeStr tag ++ P)).drop 3 = encodeStr tag ++ P := rfl
  rw [hdrop3, take_append_len, decodeBytes_encodeStr,
    drop_three_cons, drop_append_len]
  rfl

/-- C5: a well-formed inbound packet tagged with the session id of live
session S and carrying payload P is forwarded to every other live
session's current media address as `[type][nameLen][S's display
name][P]` — payload preserved byte-exactly, tag re-stamped to the
display name — and a well-formed packet whose tag matches no live
session is still fanned out to every live session, re-stamped with the
placeholder name "Unknown". -/
theorem C5_udp_restamp (st : ServerState) (S : String) (c : Client)
    (t : Nat) (P : List Nat) (src : String × Nat)
    (hwf : WF st) (hS : alookup st.clients S = some c)
    (hn : (encodeStr S).length < 65536) :
    ((handle_udp_packet st (mkUdpPacket t S P) src).2.length
        = st.clients.length - 1
      ∧ (∀ p ∈ (handle_udp_packet st (mkUdpPacket t S P) src).2,
          p.2 = mkUdpPacket t c.username P)
      ∧ (∀ q cq, q ≠ S → alookup st.clients q = some cq →
          (cq.udp_addr, mkUdpPacket t c.username P)
            ∈ (handle_udp_packet st (mkUdpPacket t S P) src).2))
    ∧ (∀ tag P2, amem st.clients tag = false →
        (encodeStr tag).length < 65536 →
        handle_udp_packet st (mkUdpPacket t tag P2) src
          = (st, st.clients.map
              (fun p => (p.2.udp_addr, mkUdpPacket t "Unknown" P2)))) := by
  constructor
  · have hparse := parse_mkUdpPacket t S P hn
    have hres : handle_udp_packet st (mkUdpPacket t S P) src
        = ({ st with clients := set_udp_addr st.clients S src },
           broadcast_udp
             { st with clients := set_udp_addr st.clients S src } P S t) := by
      rw [handle_udp_packet, hparse]
    have hname : alookup (set_udp_addr st.clients S src) S
        = some { c with udp_addr := src } := by
      rw [alookup_set_udp_addr_self, hS]
      rfl
    have hsends : broadcast_udp
        { st with clients := set_udp_addr st.clients S src } P S t
        = (st.clients.filter (fun p => p.1 ≠ S)).map
            (fun p => (p.2.udp_addr, mkUdpPacket t c.username P)) := by
      rw [broadcast_udp]
      simp only
      rw [hname]
      simp only
      rw [filter_set_udp_addr]
      rfl
    have hsends2 : (handle_udp_packet st (mkUdpPacket t S P) src).2
        = (st.clients.filter (fun p => p.1 ≠ S)).map
            (fun p => (p.2.udp_addr, mkUdpPacket t c.username P)) := by
      rw [hres]
      exact hsends
    refine ⟨?_, ?_, ?_⟩
    · rw [hsends2, List.length_map]
      exact filter_ne_key_length st.clients S hwf.1 (by simp [hS])
    · intro p hp
      rw [hsends2] at hp
      rcases List.mem_map.mp hp with ⟨q, _, hqp⟩
      exact hqp ▸ rfl
    · intro q cq hq hcq
      rw [hsends2]
      exact List.mem_map.mpr ⟨(q, cq),
        List.mem_filter.mpr ⟨alookup_mem hcq, by simpa using hq⟩, rfl⟩
  · intro tag P2 hmem hn2
    have hnone : alookup st.clients tag = none :=
      not_amem_eq_none (by simp [hmem])
    have hparse := parse_mkUdpPacket t tag P2 hn2
    have hres : handle_udp_packet st (mkUdpPacket t tag P2) src
        = ({ st with clients := set_udp_addr st.clients tag src },
           broadcast_udp
             { st with clients := set_udp_addr st.clients tag src }
             P2 tag t) := by
      rw [handle_udp_packet, hparse]
    rw [hres, set_udp_addr_not_mem st.clients tag src hnone]
    have hsends : broadcast_udp { st with clients := st.clients } P2 tag t
        = st.clients.map
            (fun p => (p.2.udp_addr, mkUdpPacket t "Unknown" P2)) := by
      rw [broadcast_udp]
      simp only
      rw [hnone]
      simp only
      rw [filter_ne_key_of_none st.clients tag hnone]
      rfl
    rw [hsends]

/-- C5 witness: "alice_1" streams payload [9, 8, 7] to the three-session
demo registry; an unknown tag is exercised through the same theorem. -/
theorem C5_udp_restamp_witness :
    (WF demoState ∧ alookup demoState.clients "alice_1" = some demoAlice
      ∧ (encodeStr "alice_1").length < 65536)
    ∧ (((handle_udp_packet demoState (mkUdpPacket 1 "alice_1" [9, 8, 7])
          ("10.0.0.1", 5555)).2.length = demoState.clients.length - 1
        ∧ (∀ p ∈ (handle_udp_packet demoState
              (mkUdpPacket 1 "alice_1" [9, 8, 7]) ("10.0.0.1", 5555)).2,
            p.2 = mkUdpPacket 1 demoAlice.username [9, 8, 7])
        ∧ (∀ q cq, q ≠ "alice_1" → alookup demoState.clients q = some cq →
            (cq.udp_addr, mkUdpPacket 1 demoAlice.username [9, 8, 7])
              ∈ (handle_udp_packet demoState
                  (mkUdpPacket 1 "alice_1" [9, 8, 7])
                  ("10.0.0.1", 5555)).2))
      ∧ (∀ tag P2, amem demoState.clients tag = false →
          (encodeStr tag).length < 65536 →
          handle_udp_packet demoState (mkUdpPacket 1 tag P2)
              ("10.0.0.1", 5555)
            = (demoState, demoState.clients.map
                (fun p => (p.2.udp_addr, mkUdpPacket 1 "Unknown" P2))))) :=
  ⟨⟨by unfold WF; decide, by decide, by decide⟩,
    C5_udp_restamp demoState "alice_1" demoAlice 1 [9, 8, 7]
      ("10.0.0.1", 5555) (by unfold WF; decide) (by decide) (by decide)⟩

/-! ### C6: malformed UDP packets are silently discarded -/

theorem parse_udp_malformed (data : List Nat)
    (hmal : data.length < 3
      ∨ (3 ≤ data.length
          ∧ data.length < 3 + unpackH (data.getD 1 0) (data.getD 2 0))) :
    parse_udp data = none := by
  rw [parse_udp]
  rcases hmal with h | ⟨h3, hlen⟩
  · rw [if_pos h]
  · rw [if_neg (by omega)]
    simp only
    rw [if_pos hlen]

/-- C6: an inbound UDP packet shorter than 3 bytes, or whose declared
tag length exceeds the bytes remaining after the 3-byte header, is
silently discarded by both the server's media router (no forward, no
state change) and the client's receiver (no callback event). -/
theorem C6_malformed_discarded (st : ServerState) (src : String × Nat)
    (data : List Nat)
    (hmal : data.length < 3
      ∨ (3 ≤ data.length
          ∧ data.length < 3 + unpackH (data.getD 1 0) (data.getD 2 0))) :
    handle_udp_packet st data src = (st, [])
    ∧ receive_udp_step data = none := by
  have hparse := parse_udp_malformed data hmal
  constructor
  · rw [handle_udp_packet, hparse]
  · rw [receive_udp_step, hparse]

/-- C6 witness: the packet `[1, 5, 0]` declares a 5-byte tag but has no
bytes after the header. -/
theorem C6_malformed_discarded_witness :
    (([1, 5, 0] : List Nat).length < 3
      ∨ (3 ≤ ([1, 5, 0] : List Nat).length
          ∧ ([1, 5, 0] : List Nat).length
            < 3 + unpackH (([1, 5, 0] : List Nat).getD 1 0)
                (([1, 5, 0] : List Nat).getD 2 0)))
    ∧ (handle_udp_packet demoState [1, 5, 0] ("10.0.0.1", 5555)
        = (demoState, [])
      ∧ receive_udp_step [1, 5, 0] = none) :=
  ⟨by decide,
    C6_malformed_discarded demoState ("10.0.0.1", 5555) [1, 5, 0]
      (by decide)⟩

/-! ### C7: reliable-channel frame round-trip -/

/-- C7: encoding a reliable-channel frame — 4-byte little-endian length
prefix followed by exactly the payload bytes — and decoding the
resulting stream returns the original payload byte-exactly (with the
remainder of the stream untouched), for every payload that fits the
32-bit length field. -/
theorem C7_frame_roundtrip (payload rest : List Nat)
    (h : payload.length < 4294967296) :
    ∃ frame, encodeFrame payload = some frame
      ∧ decodeFrame (frame ++ rest) = some (payload, rest) := by
  have hpack : packI payload.length
      = some [payload.length % 256, payload.length / 256 % 256,
          payload.length / 65536 % 256, payload.length / 16777216 % 256] := by
    rw [packI, if_pos h]
  refine ⟨[payload.length % 256, payload.length / 256 % 256,
      payload.length / 65536 % 256, payload.length / 16777216 % 256]
      ++ payload, ?_, ?_⟩
  · rw [encodeFrame, hpack]
    rfl
  · rw [decodeFrame]
    rw [if_neg (by simp only [List.cons_append, List.append_assoc,
      List.length_cons, List.length_append]; omega)]
    have htake : (([payload.length % 256, payload.length / 256 % 256,
        payload.length / 65536 % 256, payload.length / 16777216 % 256]
        ++ payload) ++ rest).take 4
        = [payload.length % 256, payload.length / 256 % 256,
            payload.length / 65536 % 256,
            payload.length / 16777216 % 256] := rfl
    have hdrop : (([payload.length % 256, payload.length / 256 % 256,
        payload.length / 65536 % 256, payload.length / 16777216 % 256]
        ++ payload) ++ rest).drop 4 = payload ++ rest := rfl
    rw [htake, hdrop]
    have hunp : unpackI [payload.length % 256, payload.length / 256 % 256,
        payload.length / 65536 % 256, payload.length / 16777216 % 256]
        = payload.length := by
      rw [unpackI]
      simp only [List.getD, List.get?, Option.getD_some]
      omega
    rw [hunp]
    rw [if_neg (by simp only [List.length_append]; omega)]
    rw [take_append_len, drop_append_len]

/-- C7 witness: a 65536-byte payload round-trips (together with sizes 0
and 1, which follow from the same theorem; the hypothesis is the
32-bit bound). -/
theorem C7_frame_roundtrip_witness :
    ((List.replicate 65536 7).length < 4294967296
      ∧ ([] : List Nat).length < 4294967296
      ∧ ([5] : List Nat).length < 4294967296)
    ∧ ((∃ frame, encodeFrame (List.replicate 65536 7) = some frame
        ∧ decodeFrame (frame ++ []) = some (List.replicate 65536 7, []))
      ∧ (∃ frame, encodeFrame [] = some frame
        ∧ decodeFrame (frame ++ [3]) = some ([], [3]))
      ∧ (∃ frame, encodeFrame [5] = some frame
        ∧ decodeFrame (frame ++ []) = some ([5], []))) :=
  ⟨⟨by rw [List.length_replicate]; omega, by decide, by decide⟩,
    C7_frame_roundtrip (List.replicate 65536 7) []
      (by rw [List.length_replicate]; omega),
    C7_frame_roundtrip [] [3] (by decide),
    C7_frame_roundtrip [5] [] (by decide)⟩

/-! ### C8: what the client's connect leaves behind on failure -/

/-- C8 counterexample: the reply `CONNECTED:x` is not of the form
`CONNECTED:<id>:<name>` (two fields only), yet connect succeeds and
retains `x` as the session id; and for the genuinely rejected reply
`HELLO`, connect fails but leaves the TCP stream open rather than
closing it. -/
theorem C8_counterexample :
    isConnectedReplyForm "CONNECTED:x" = false
    ∧ connectStep (.reply "CONNECTED:x")
        = ⟨true, true, some "x", true⟩
    ∧ isConnectedReplyForm "HELLO" = false
    ∧ (connectStep (.reply "HELLO")).success = false
    ∧ (connectStep (.reply "HELLO")).tcp_open = true := by
  refine ⟨by decide, by decide, by decide, by decide, by decide⟩

/-- C8 (amended): if the handshake reply does not start with
`CONNECTED:` — the only check the client performs — or the read times
out, connect reports failure, the connected flag remains false and no
session id is retained; the TCP stream however remains open: no failure
path closes it. -/
theorem C8_connect_failure (s : String)
    (h : pyStartsWith s "CONNECTED:" = false) :
    connectStep (.reply s)
      = { success := false, connected := false,
          client_id := none, tcp_open := true }
    ∧ connectStep .timeout
      = { success := false, connected := false,
          client_id := none, tcp_open := true } := by
  constructor
  · rw [connectStep]
    rw [if_neg (by simp [h])]
  · rfl

/-- C8 witness: the reply `HELLO`. -/
theorem C8_connect_failure_witness :
    pyStartsWith "HELLO" "CONNECTED:" = false
    ∧ (connectStep (.reply "HELLO")
        = { success := false, connected := false,
            client_id := none, tcp_open := true }
      ∧ connectStep .timeout
        = { success := false, connected := false,
            client_id := none, tcp_open := true }) :=
  ⟨by decide, C8_connect_failure "HELLO" (by decide)⟩

/-! ### C9: how the media address is established and mutated -/

/-- C9 counterexample: registering "alice" (TCP source 10.0.0.1) with
no UDP traffic at all already initializes her media address to
(10.0.0.1, server UDP port); after "bob" also registers, the fan-out of
bob's first tagged packet is sent to that registration-initialized
address — so arrival of tagged packets is not the only step that
establishes where outbound media is sent. -/
theorem C9_counterexample :
    (alookup (runHandshakes 9001 emptyState
        [Handshake.mk "alice" 5 "10.0.0.1"]).clients
        (mkClientId "alice" 5)).map Client.udp_addr
      = some ("10.0.0.1", 9001)
    ∧ ((handle_udp_packet
        (runHandshakes 9001 emptyState
          [Handshake.mk "alice" 5 "10.0.0.1",
            Handshake.mk "bob" 6 "10.0.0.2"])
        (mkUdpPacket 2 (mkClientId "bob" 6) [1])
        ("10.0.0.2", 4444)).2.map Prod.fst = [("10.0.0.1", 9001)]) := by
  refine ⟨by decide, by decide⟩

/-- C9 (amended): a live session's `media_address` is initialized at
registration to (the peer's TCP source host, the server's UDP port);
thereafter it is mutated only when a well-formed UDP packet tagged with
that session's id arrives, in which case it is set to that packet's
source address (last-writer-wins) — the UDP step touches no other
session's address, a malformed packet touches none, and the control
path never changes any address. -/
theorem C9_media_address (st : ServerState) (src : String × Nat)
    (data : List Nat) :
    (∀ udp_port u m ip st2 cid,
        handshake udp_port st u m ip = some (st2, cid) →
        (alookup st2.clients cid).map Client.udp_addr = some (ip, udp_port))
    ∧ (∀ t tag P, parse_udp data = some (t, tag, P) →
        amem st.clients tag = true →
        (alookup (handle_udp_packet st data src).1.clients tag).map
          Client.udp_addr = some src)
    ∧ (∀ t tag P q, parse_udp data = some (t, tag, P) → q ≠ tag →
        alookup (handle_udp_packet st data src).1.clients q
          = alookup st.clients q)
    ∧ (parse_udp data = none → (handle_udp_packet st data src).1 = st)
    ∧ (∀ cid ctl q,
        (alookup (handle_control st cid ctl).1.clients q).map
          Client.udp_addr
        = (alookup st.clients q).map Client.udp_addr) := by
  refine ⟨?_, ?_, ?_, ?_, ?_⟩
  · intro udp_port u m ip st2 cid hh
    rw [handshake] at hh
    by_cases hu : u = ""
    · rw [if_pos hu] at hh
      exact absurd hh (by simp)
    · rw [if_neg hu] at hh
      simp only [Option.some.injEq, Prod.mk.injEq] at hh
      obtain ⟨hst2, hcid⟩ := hh
      rw [← hst2, ← hcid]
      simp only
      rw [alookup_aupdate_self]
      rfl
  · intro t tag P hp hmem
    have h1 : (handle_udp_packet st data src).1
        = { st with clients := set_udp_addr st.clients tag src } := by
      rw [handle_udp_packet, hp]
    rw [h1]
    rcases Option.isSome_iff_exists.mp (by simpa [amem] using hmem)
      with ⟨c, hc⟩
    simp only
    rw [alookup_set_udp_addr_self, hc]
    rfl
  · intro t tag P q hp hq
    have h1 : (handle_udp_packet st data src).1
        = { st with clients := set_udp_addr st.clients tag src } := by
      rw [handle_udp_packet, hp]
    rw [h1]
    exact alookup_set_udp_addr_ne st.clients tag q src hq
  · intro hp
    rw [handle_udp_packet, hp]
  · intro cid ctl q
    cases hc : alookup st.clients cid with
    | none =>
      have h1 : (handle_control st cid ctl).1 = st := by
        rw [handle_control, hc]
      rw [h1]
    | some c =>
      set c' : Client :=
        (if ctl = "VIDEO_ON" then { c with video_active := true }
          else if ctl = "VIDEO_OFF" then { c with video_active := false }
          else if ctl = "AUDIO_ON" then { c with audio_active := true }
          else if ctl = "AUDIO_OFF" then { c with audio_active := false }
          else if ctl = "SCREEN_ON" then { c with screen_sharing := true }
          else if ctl = "SCREEN_OFF" then { c with screen_sharing := false }
          else c) with hc'
      have h1 : (handle_control st cid ctl).1
          = { st with clients := aupdate st.clients cid c' } := by
        rw [handle_control, hc]
      rw [h1]
      by_cases hq : q = cid
      · subst hq
        simp only
        rw [alookup_aupdate_self, hc]
        have haddr : c'.udp_addr = c.udp_addr := by
          rw [hc']
          split_ifs <;> rfl
        simp [haddr]
      · simp only
        rw [alookup_aupdate_ne st.clients cid q c' hq]

/-- C9 witness: the three-session demo registry with a packet tagged
"bob_2" arriving from a fresh source address. -/
theorem C9_media_address_witness :
    (∀ udp_port u m ip st2 cid,
        handshake udp_port demoState u m ip = some (st2, cid) →
        (alookup st2.clients cid).map Client.udp_addr = some (ip, udp_port))
    ∧ (∀ t tag P,
        parse_udp (mkUdpPacket 2 "bob_2" [4]) = some (t, tag, P) →
        amem demoState.clients tag = true →
        (alookup (handle_udp_packet demoState (mkUdpPacket 2 "bob_2" [4])
            ("10.9.9.9", 4444)).1.clients tag).map Client.udp_addr
          = some ("10.9.9.9", 4444))
    ∧ (∀ t tag P q,
        parse_udp (mkUdpPacket 2 "bob_2" [4]) = some (t, tag, P) →
        q ≠ tag →
        alookup (handle_udp_packet demoState (mkUdpPacket 2 "bob_2" [4])
            ("10.9.9.9", 4444)).1.clients q
          = alookup demoState.clients q)
    ∧ (parse_udp (mkUdpPacket 2 "bob_2" [4]) = none →
        (handle_udp_packet demoState (mkUdpPacket 2 "bob_2" [4])
          ("10.9.9.9", 4444)).1 = demoState)
    ∧ (∀ cid ctl q,
        (alookup (handle_control demoState cid ctl).1.clients q).map
          Client.udp_addr
        = (alookup demoState.clients q).map Client.udp_addr) :=
  C9_media_address demoState ("10.9.9.9", 4444) (mkUdpPacket 2 "bob_2" [4])

/-! ### C10: closing a session whose display name was taken over -/

/-- C10: if sessions A and B share a display name and the name map
currently points the name at B (B registered later), then when A's
connection closes the cleanup deletes the name-map entry — even though
it points to B — so B stays in the client table and the room set but is
absent from the name index. -/
theorem C10_name_takeover (st : ServerState) (A B : String)
    (ca cb : Client) (hwf : WF st)
    (hA : alookup st.clients A = some ca)
    (hB : alookup st.clients B = some cb) (hAB : A ≠ B)
    (hname : ca.username = cb.username)
    (hmap : alookup st.username_to_id ca.username = some B)
    (hroomB : B ∈ st.room_main) :
    alookup (cleanup_connection st A).1.clients B = some cb
    ∧ B ∈ (cleanup_connection st A).1.room_main
    ∧ alookup (cleanup_connection st A).1.username_to_id cb.username
        = none
    ∧ (cleanup_connection st A).2 = true := by
  have h1 : cleanup_connection st A
      = ({ clients := aerase st.clients A,
           username_to_id :=
             if amem st.username_to_id ca.username then
               aerase st.username_to_id ca.username
             else st.username_to_id,
           room_main := sdiscard st.room_main A }, true) := by
    rw [cleanup_connection, hA]
  rw [h1]
  refine ⟨?_, ?_, ?_, rfl⟩
  · rw [alookup_aerase_ne st.clients A B (Ne.symm hAB)]
    exact hB
  · simp only [sdiscard]
    exact List.mem_filter.mpr ⟨hroomB, by simpa using Ne.symm hAB⟩
  · rw [if_pos (by simp [amem, hmap]), ← hname]
    exact alookup_aerase_self st.username_to_id ca.username hwf.2

/-- C10 witness: the duplicate-name registry where "alice_9" took over
the name "alice"; closing "alice_1" strands "alice_9" outside the name
index. -/
theorem C10_name_takeover_witness :
    (WF dupNameState
      ∧ alookup dupNameState.clients "alice_1" = some demoAlice
      ∧ alookup dupNameState.clients "alice_9" = some demoAlice9
      ∧ demoAlice.username = demoAlice9.username
      ∧ alookup dupNameState.username_to_id demoAlice.username
          = some "alice_9"
      ∧ "alice_9" ∈ dupNameState.room_main)
    ∧ (alookup (cleanup_connection dupNameState "alice_1").1.clients
          "alice_9" = some demoAlice9
      ∧ "alice_9" ∈ (cleanup_connection dupNameState "alice_1").1.room_main
      ∧ alookup (cleanup_connection dupNameState "alice_1").1.username_to_id
          demoAlice9.username = none
      ∧ (cleanup_connection dupNameState "alice_1").2 = true) :=
  ⟨⟨by unfold WF; decide, by decide, by decide, by decide, by decide,
      by decide⟩,
    C10_name_takeover dupNameState "alice_1" "alice_9" demoAlice demoAlice9
      (by unfold WF; decide) (by decide) (by decide) (by decide)
      (by decide) (by decide) (by decide)⟩

end CN
